import Mathlib

/-
  Verification of the pesiki-bot statistics core.

  Shallow embedding of the time-window, aggregation and nomination logic of
  src/stats.ts, src/utils.ts and src/formatter.ts.

  Modelling conventions:
  * JavaScript numbers are modelled as Int where the source only ever holds
    integers (timestamps, counters, rounded percentages) and as Rat where the
    source divides.  Division by zero yields 0 in Rat, whereas JS yields NaN;
    the callers of the affected code paths guarantee nonzero denominators
    (totalMatches > 0), and no theorem below relies on the value of a
    division whose JS counterpart is NaN.
  * Date.UTC / getUTC* are modelled by the ECMAScript specification of
    MakeDay, YearFromTime, MonthFromTime and DateFromTime on the proleptic
    Gregorian calendar, with epoch day arithmetic over Int.  Lean Int
    division by a positive constant is floor division, matching ECMAScript.
  * String.localeCompare is modelled as the codepoint order on strings; the
    two orders agree on the same-case ASCII names used in all concrete
    inputs below.
  * Array.prototype.sort with a consistent comparator is a stable sort; it
    is modelled by insertion sort (List.insertionSort) on the reflexive
    relation "comparator result is not positive", which is the unique
    stable sorted permutation for a total preorder.
-/

namespace PesikiBot

/-! ## ECMAScript calendar primitives -/

/-- Epoch day number of January 1st of year y (ECMAScript TimeFromYear,
expressed in days).  365 days per year plus one leap day for every year
divisible by 4, minus centuries, plus quadricenturies, shifted so that
day 0 is 1970-01-01. -/
def daysToYear (y : Int) : Int := 365 * y + ((y-1) / 4 - (y-1) / 100 + (y-1) / 400) - 719527

/-- ECMAScript InLeapYear: Gregorian leap-year predicate. -/
def isLeap (y : Int) : Bool := (y % 4 == 0 && y % 100 != 0) || y % 400 == 0

/-- Selects among four candidate years the one whose day range contains z. -/
def yearAdjust (z y0 : Int) : Int :=
  if z < daysToYear y0 then y0 - 1
  else if z < daysToYear (y0 + 1) then y0
  else if z < daysToYear (y0 + 2) then y0 + 1
  else y0 + 2

/-- ECMAScript YearFromTime on an epoch day number: the unique year y with
daysToYear y ≤ z < daysToYear (y+1).  Computed with an affine first guess
followed by adjustment. -/
def yearFromDays (z : Int) : Int := yearAdjust z ((400 * z + 287810800) / 146097)

/-- Days in the year before the first day of 0-based month m
(leap is 1 in a leap year, else 0). -/
def cumDaysBeforeMonth (leap m : Int) : Int :=
  if m = 0 then 0 else if m = 1 then 31 else if m = 2 then 59 + leap
  else if m = 3 then 90 + leap else if m = 4 then 120 + leap else if m = 5 then 151 + leap
  else if m = 6 then 181 + leap else if m = 7 then 212 + leap else if m = 8 then 243 + leap
  else if m = 9 then 273 + leap else if m = 10 then 304 + leap else 334 + leap

/-- ECMAScript MonthFromTime: 0-based month of a day-within-year. -/
def monthFromDayOfYear (leap doy : Int) : Int :=
  if doy < 31 then 0 else if doy < 59 + leap then 1 else if doy < 90 + leap then 2
  else if doy < 120 + leap then 3 else if doy < 151 + leap then 4 else if doy < 181 + leap then 5
  else if doy < 212 + leap then 6 else if doy < 243 + leap then 7 else if doy < 273 + leap then 8
  else if doy < 304 + leap then 9 else if doy < 334 + leap then 10 else 11

/-- Calendar components of an epoch day number: year, 0-based month and
1-based day of month, as read by getUTCFullYear / getUTCMonth / getUTCDate. -/
structure CivilDate where
  year : Int
  month : Int
  day : Int
deriving DecidableEq

/-- Leap-day count of a year, 1 in a leap year and 0 otherwise. -/
def leapDays (y : Int) : Int := if isLeap y then 1 else 0

/-- ECMAScript DayWithinYear on an epoch day number. -/
def dayWithinYear (z : Int) : Int := z - daysToYear (yearFromDays z)

/-- ECMAScript YearFromTime / MonthFromTime / DateFromTime on an epoch day
number. -/
def civilFromDays (z : Int) : CivilDate :=
  ⟨yearFromDays z,
   monthFromDayOfYear (leapDays (yearFromDays z)) (dayWithinYear z),
   dayWithinYear z
     - cumDaysBeforeMonth (leapDays (yearFromDays z))
         (monthFromDayOfYear (leapDays (yearFromDays z)) (dayWithinYear z)) + 1⟩

/-- ECMAScript MakeDay: epoch day number for year y, 0-based month m
(normalised into the year with floor division) and 1-based day d
(allowed to be out of range, extending the month linearly). -/
def makeDay (y m d : Int) : Int :=
  daysToYear (y + m / 12) + cumDaysBeforeMonth (leapDays (y + m / 12)) (m % 12) + (d - 1)

/-- Date.UTC(y, m, d, h) in milliseconds. -/
def dateUTCms (y m d h : Int) : Int := (makeDay y m d * 24 + h) * 3600000

/-- ECMAScript HourFromTime of an epoch-millisecond instant. -/
def getUTCHours (ms : Int) : Int := (ms / 3600000) % 24

/-! ### Calendar lemmas -/

theorem daysToYear_succ (y : Int) :
    daysToYear (y + 1) = daysToYear y + 365 + (if isLeap y then 1 else 0) := by
  unfold daysToYear isLeap
  split <;> rename_i h <;>
    simp only [Bool.or_eq_true, Bool.and_eq_true, beq_iff_eq, bne_iff_ne] at h <;> omega

theorem yearAdjust_spec (z y0 : Int) (hl : daysToYear (y0 - 1) ≤ z)
    (hu : z < daysToYear (y0 + 3)) :
    daysToYear (yearAdjust z y0) ≤ z ∧ z < daysToYear (yearAdjust z y0 + 1) := by
  unfold yearAdjust
  split <;> rename_i h1
  · have e : y0 - 1 + 1 = y0 := by ring
    rw [e]; exact ⟨hl, h1⟩
  · split <;> rename_i h2
    · exact ⟨not_lt.mp h1, h2⟩
    · split <;> rename_i h3
      · have e : y0 + 1 + 1 = y0 + 2 := by ring
        rw [e]; exact ⟨not_lt.mp h2, h3⟩
      · have e : y0 + 2 + 1 = y0 + 3 := by ring
        rw [e]; exact ⟨not_lt.mp h3, hu⟩

theorem guess_lower (z : Int) : daysToYear ((400 * z + 287810800) / 146097 - 1) ≤ z := by
  unfold daysToYear; omega

theorem guess_upper (z : Int) : z < daysToYear ((400 * z + 287810800) / 146097 + 3) := by
  unfold daysToYear; omega

theorem yearFromDays_spec (z : Int) :
    daysToYear (yearFromDays z) ≤ z ∧ z < daysToYear (yearFromDays z + 1) :=
  yearAdjust_spec z _ (guess_lower z) (guess_upper z)

theorem daysToYear_mono {a b : Int} (h : a < b) : daysToYear (a + 1) ≤ daysToYear b := by
  unfold daysToYear; omega

theorem yearFromDays_unique {z y : Int} (h1 : daysToYear y ≤ z)
    (h2 : z < daysToYear (y + 1)) : yearFromDays z = y := by
  rcases yearFromDays_spec z with ⟨s1, s2⟩
  by_contra hne
  rcases lt_or_gt_of_ne hne with h | h
  · exact absurd ((daysToYear_mono h).trans h1) (not_le.mpr s2)
  · exact absurd ((daysToYear_mono h).trans s1) (not_le.mpr h2)

set_option maxHeartbeats 2000000 in
theorem monthFromDayOfYear_bound (leap doy : Int) :
    0 ≤ monthFromDayOfYear leap doy ∧ monthFromDayOfYear leap doy < 12 := by
  unfold monthFromDayOfYear
  repeat' split
  all_goals omega

theorem cumDaysBeforeMonth_bounds (leap mn : Int) (hl : leap = 0 ∨ leap = 1)
    (h0 : 0 ≤ mn) (h12 : mn < 12) :
    0 ≤ cumDaysBeforeMonth leap mn ∧ cumDaysBeforeMonth leap mn ≤ 334 + leap := by
  rcases hl with rfl | rfl <;> interval_cases mn <;> decide

theorem monthFromDayOfYear_cum (leap mn : Int) (hl : leap = 0 ∨ leap = 1)
    (h0 : 0 ≤ mn) (h12 : mn < 12) :
    monthFromDayOfYear leap (cumDaysBeforeMonth leap mn) = mn := by
  rcases hl with rfl | rfl <;> interval_cases mn <;> decide

theorem leapDays_cases (y : Int) : leapDays y = 0 ∨ leapDays y = 1 := by
  unfold leapDays; split <;> simp

/-- Round trip: reading back the calendar components of the first day of a
month recovers the year and month. -/
theorem civilFromDays_makeDay_first (y mn : Int) (h0 : 0 ≤ mn) (h12 : mn < 12) :
    civilFromDays (makeDay y mn 1) = ⟨y, mn, 1⟩ := by
  have hdiv : y + mn / 12 = y := by omega
  have hmod : mn % 12 = mn := by omega
  have hz : makeDay y mn 1 = daysToYear y + cumDaysBeforeMonth (leapDays y) mn := by
    unfold makeDay
    rw [hdiv, hmod]; ring
  have hcb := cumDaysBeforeMonth_bounds (leapDays y) mn (leapDays_cases y) h0 h12
  have hyear : yearFromDays (makeDay y mn 1) = y := by
    apply yearFromDays_unique
    · rw [hz]; omega
    · rw [hz, daysToYear_succ y]
      show _ < _ + 365 + leapDays y
      rcases leapDays_cases y with h | h <;> rw [h] at hcb ⊢ <;> omega
  have hdoy : dayWithinYear (makeDay y mn 1) = cumDaysBeforeMonth (leapDays y) mn := by
    unfold dayWithinYear
    rw [hyear, hz]; ring
  unfold civilFromDays
  rw [hyear, hdoy, monthFromDayOfYear_cum _ mn (leapDays_cases y) h0 h12]
  simp

/-! ## Constants (src/constants.ts and src/stats.ts) -/

def MSK_OFFSET_HOURS : Int := 3

def DAY_START_HOUR_MSK : Int := 6

def LONG_MATCH_THRESHOLD_SECONDS : Nat := 45 * 60

/-! ## src/utils.ts -/

/-- Components of the current MSK time, as returned by getMskTimeComponents:
the MSK offset is added to the UTC instant and the calendar fields are read
with the getUTC* accessors.  The source reads the clock; here the instant
nowMs (epoch milliseconds) is an explicit parameter. -/
structure MskTimeComponents where
  year : Int
  month : Int
  date : Int
  hours : Int
  day : Int
deriving DecidableEq

def getMskTimeComponents (nowMs : Int) : MskTimeComponents :=
  let mskTime := nowMs + MSK_OFFSET_HOURS * 60 * 60 * 1000
  let days := mskTime / 86400000
  let c := civilFromDays days
  ⟨c.year, c.month, c.day, getUTCHours mskTime, (days + 4) % 7⟩

/-! ## src/stats.ts -/

/-- A match record from the OpenDota API (interface RecentMatch in
src/opendota.ts).  Counters are naturals, the timestamp is an integer of
epoch seconds. -/
structure RecentMatch where
  match_id : Nat
  player_slot : Nat
  radiant_win : Bool
  start_time : Int
  duration : Nat
  hero_id : Nat
  kills : Nat
  deaths : Nat
  assists : Nat
deriving DecidableEq

/-- One hero entry per counted match (interface HeroMatch). -/
structure HeroMatch where
  heroId : Nat
  isWin : Bool
deriving DecidableEq

/-- Aggregated per-player statistics (interface PlayerStats). -/
structure PlayerStats where
  playerId : Nat
  playerName : String
  wins : Nat
  losses : Nat
  totalMatches : Nat
  winRate : Int
  heroes : List HeroMatch
  avgApm : Option Rat
  avgKda : Option Rat
  rank : Option Int
  totalKills : Nat
  totalDeaths : Nat
  totalAssists : Nat
  totalDurationSeconds : Nat
  avgDurationSeconds : Rat
  longMatches : Nat
  longWins : Nat
  nightMatches : Nat
  morningMatches : Nat
deriving DecidableEq, Inhabited

inductive StatsPeriod where
  | today
  | yesterday
  | week
  | month
deriving DecidableEq

/-- Whether the player won the match: slots 0-127 are Radiant. -/
def isWin (m : RecentMatch) : Bool := (decide (m.player_slot < 128)) == m.radiant_win

/-- JavaScript Math.round: round half toward positive infinity. -/
def jsRound (q : Rat) : Int := ⌊q + 1/2⌋

/-- Rounding to 2 decimal places via Math.round(x * 100) / 100. -/
def round2 (q : Rat) : Rat := (jsRound (q * 100) : Rat) / 100

/-- Rounding to 1 decimal place via Math.round(x * 10) / 10. -/
def round1 (q : Rat) : Rat := (jsRound (q * 10) : Rat) / 10

/-- mskToUtcTimestamp from src/stats.ts: UTC epoch seconds of the given MSK
calendar time (Date.UTC of the components minus the MSK offset). -/
def mskToUtcTimestamp (year month date hours : Int) : Int :=
  (dateUTCms year month date hours - MSK_OFFSET_HOURS * 60 * 60 * 1000) / 1000

/-- getMskHourFromStartTime from src/stats.ts. -/
def getMskHourFromStartTime (startTimeSeconds : Int) : Int :=
  getUTCHours ((startTimeSeconds + MSK_OFFSET_HOURS * 60 * 60) * 1000)

/-- getPeriodStartTimestamp from src/stats.ts, with the clock instant nowMs
as an explicit parameter. -/
def getPeriodStartTimestamp (period : StatsPeriod) (nowMs : Int) : Int :=
  let msk := getMskTimeComponents nowMs
  match period with
  | .today =>
    let c : CivilDate :=
      if msk.hours < DAY_START_HOUR_MSK then
        civilFromDays (dateUTCms msk.year msk.month (msk.date - 1) 0 / 86400000)
      else ⟨msk.year, msk.month, msk.date⟩
    mskToUtcTimestamp c.year c.month c.day DAY_START_HOUR_MSK
  | .yesterday =>
    let daysBack : Int := if msk.hours < DAY_START_HOUR_MSK then 2 else 1
    let c := civilFromDays (dateUTCms msk.year msk.month (msk.date - daysBack) 0 / 86400000)
    mskToUtcTimestamp c.year c.month c.day DAY_START_HOUR_MSK
  | .week =>
    let dayOfWeek := msk.day
    let daysToMonday : Int := if dayOfWeek = 0 then 6 else dayOfWeek - 1
    let adjustedDays : Int :=
      if daysToMonday = 0 ∧ msk.hours < DAY_START_HOUR_MSK then 7 else daysToMonday
    let c := civilFromDays (dateUTCms msk.year msk.month (msk.date - adjustedDays) 0 / 86400000)
    mskToUtcTimestamp c.year c.month c.day DAY_START_HOUR_MSK
  | .month =>
    let ym : Int × Int :=
      if msk.date = 1 ∧ msk.hours < DAY_START_HOUR_MSK then
        let c := civilFromDays (dateUTCms msk.year (msk.month - 1) 1 0 / 86400000)
        (c.year, c.month)
      else (msk.year, msk.month)
    mskToUtcTimestamp ym.1 ym.2 1 DAY_START_HOUR_MSK

/-- getPeriodEndTimestamp from src/stats.ts: null (none) for every period
except yesterday, whose exclusive end is the start of today. -/
def getPeriodEndTimestamp (period : StatsPeriod) (nowMs : Int) : Option Int :=
  if period ≠ .yesterday then none
  else some (getPeriodStartTimestamp .today nowMs)

/-- filterMatchesByPeriod from src/stats.ts. -/
def filterMatchesByPeriod (matchList : List RecentMatch) (period : StatsPeriod)
    (nowMs : Int) : List RecentMatch :=
  let periodStart := getPeriodStartTimestamp period nowMs
  let periodEnd := getPeriodEndTimestamp period nowMs
  matchList.filter fun m =>
    if m.start_time < periodStart then false
    else match periodEnd with
      | some e => if e ≤ m.start_time then false else true
      | none => true

/-- calculateStats from src/stats.ts.  The per-match loop counters are
expressed as filter lengths over the same filtered list; the night and
morning buckets keep the else-if structure of the source. -/
def calculateStats (playerId : Nat) (playerName : String) (matchList : List RecentMatch)
    (period : StatsPeriod) (nowMs : Int) (avgApm : Option Rat) (rank : Option Int) :
    PlayerStats :=
  let filteredMatches := filterMatchesByPeriod matchList period nowMs
  let wins := (filteredMatches.filter isWin).length
  let losses := filteredMatches.length - wins
  let totalMatches := filteredMatches.length
  let winRate : Int :=
    if 0 < totalMatches then jsRound (((wins : Rat) / (totalMatches : Rat)) * 100) else 0
  let heroes : List HeroMatch := filteredMatches.map fun m => ⟨m.hero_id, isWin m⟩
  let totalKills : Nat := filteredMatches.foldl (fun sum m => sum + m.kills) 0
  let totalDeaths : Nat := filteredMatches.foldl (fun sum m => sum + m.deaths) 0
  let totalAssists : Nat := filteredMatches.foldl (fun sum m => sum + m.assists) 0
  let totalDurationSeconds : Nat := filteredMatches.foldl (fun sum m => sum + m.duration) 0
  let avgDurationSeconds : Rat :=
    if 0 < totalMatches then (totalDurationSeconds : Rat) / (totalMatches : Rat) else 0
  let longMatches :=
    (filteredMatches.filter fun m => LONG_MATCH_THRESHOLD_SECONDS ≤ m.duration).length
  let longWins :=
    (filteredMatches.filter fun m =>
      decide (LONG_MATCH_THRESHOLD_SECONDS ≤ m.duration) && isWin m).length
  let nightMatches :=
    (filteredMatches.filter fun m =>
      let mskHour := getMskHourFromStartTime m.start_time
      decide (0 ≤ mskHour) && decide (mskHour < 6)).length
  let morningMatches :=
    (filteredMatches.filter fun m =>
      let mskHour := getMskHourFromStartTime m.start_time
      !(decide (0 ≤ mskHour) && decide (mskHour < 6)) &&
        (decide (6 ≤ mskHour) && decide (mskHour < 12))).length
  let avgKda : Option Rat :=
    if 0 < filteredMatches.length then
      some (round2 (if 0 < totalDeaths then
        ((totalKills : Rat) + (totalAssists : Rat)) / (totalDeaths : Rat)
      else (totalKills : Rat) + (totalAssists : Rat)))
    else none
  { playerId := playerId
    playerName := playerName
    wins := wins
    losses := losses
    totalMatches := totalMatches
    winRate := winRate
    heroes := heroes
    avgApm := avgApm
    avgKda := avgKda
    rank := rank
    totalKills := totalKills
    totalDeaths := totalDeaths
    totalAssists := totalAssists
    totalDurationSeconds := totalDurationSeconds
    avgDurationSeconds := avgDurationSeconds
    longMatches := longMatches
    longWins := longWins
    nightMatches := nightMatches
    morningMatches := morningMatches }

/-! ## src/formatter.ts -/

/-- Grouped hero statistics (interface GroupedHero). -/
structure GroupedHero where
  heroId : Nat
  name : String
  wins : Nat
  losses : Nat
deriving DecidableEq, Inhabited

/-- A nomination awarded to a player (interface Nomination).  The emoji and
the formatted display value are presentation-only strings and are not
modelled; heroName is carried for the Клоун nomination. -/
structure Nomination where
  title : String
  player : PlayerStats
  heroName : Option String
deriving DecidableEq

/-- Codepoint-wise lexicographic comparison of character lists: the model of
a non-positive String.localeCompare result.  Defined by structural recursion
so that it evaluates inside the kernel. -/
def charListLe : List Char → List Char → Bool
  | [], _ => true
  | _ :: _, [] => false
  | a :: as, b :: bs =>
    if a.toNat < b.toNat then true
    else if b.toNat < a.toNat then false
    else charListLe as bs

/-- Model of a.localeCompare(b) being at most 0: codepoint order on the
underlying character data. -/
def nameLe (a b : String) : Bool := charListLe a.data b.data

theorem charListLe_total : ∀ a b : List Char, charListLe a b = true ∨ charListLe b a = true := by
  intro a
  induction a with
  | nil => intro b; exact Or.inl rfl
  | cons x xs ih =>
    intro b
    cases b with
    | nil => exact Or.inr rfl
    | cons y ys =>
      rcases Nat.lt_trichotomy x.toNat y.toNat with h | h | h
      · left; simp [charListLe, h]
      · have h1 : ¬ x.toNat < y.toNat := by omega
        have h2 : ¬ y.toNat < x.toNat := by omega
        rcases ih ys with hr | hr
        · left; simp [charListLe, h1, h2, hr]
        · right; simp [charListLe, h1, h2, hr]
      · right; simp [charListLe, h]

theorem charListLe_trans : ∀ a b c : List Char,
    charListLe a b = true → charListLe b c = true → charListLe a c = true := by
  intro a
  induction a with
  | nil => intro b c _ _; rfl
  | cons x xs ih =>
    intro b c hab hbc
    cases b with
    | nil => simp [charListLe] at hab
    | cons y ys =>
      cases c with
      | nil => simp [charListLe] at hbc
      | cons z zs =>
        rcases Nat.lt_trichotomy x.toNat y.toNat with h1 | h1 | h1 <;>
          rcases Nat.lt_trichotomy y.toNat z.toNat with h2 | h2 | h2
        · simp [charListLe, show x.toNat < z.toNat by omega]
        · simp [charListLe, show x.toNat < z.toNat by omega]
        · simp [charListLe, show ¬ y.toNat < z.toNat by omega,
            show z.toNat < y.toNat from h2] at hbc
        · simp [charListLe, show x.toNat < z.toNat by omega]
        · simp [charListLe, show ¬ x.toNat < y.toNat by omega,
            show ¬ y.toNat < x.toNat by omega] at hab
          simp [charListLe, show ¬ y.toNat < z.toNat by omega,
            show ¬ z.toNat < y.toNat by omega] at hbc
          simp [charListLe, show ¬ x.toNat < z.toNat by omega,
            show ¬ z.toNat < x.toNat by omega]
          exact ih ys zs hab hbc
        · simp [charListLe, show ¬ y.toNat < z.toNat by omega,
            show z.toNat < y.toNat from h2] at hbc
        · simp [charListLe, show ¬ x.toNat < y.toNat by omega,
            show y.toNat < x.toNat from h1] at hab
        · simp [charListLe, show ¬ x.toNat < y.toNat by omega,
            show y.toNat < x.toNat from h1] at hab
        · simp [charListLe, show ¬ x.toNat < y.toNat by omega,
            show y.toNat < x.toNat from h1] at hab

theorem nameLe_total (a b : String) : nameLe a b = true ∨ nameLe b a = true :=
  charListLe_total a.data b.data

theorem nameLe_trans {a b c : String} (h1 : nameLe a b = true) (h2 : nameLe b c = true) :
    nameLe a c = true :=
  charListLe_trans a.data b.data c.data h1 h2

/-- Total games of a grouped hero. -/
def heroTotal (g : GroupedHero) : Nat := g.wins + g.losses

/-- The comparator of groupHeroes as a reflexive relation: heroLe a b holds
when the comparator result for (a, b) is not positive, that is total games
descending with ties broken by ascending name. -/
def heroLe (a b : GroupedHero) : Prop :=
  heroTotal b < heroTotal a ∨ (heroTotal b = heroTotal a ∧ nameLe a.name b.name = true)

instance : DecidableRel heroLe := fun a b =>
  decidable_of_iff
    (heroTotal b < heroTotal a ∨ (heroTotal b = heroTotal a ∧ nameLe a.name b.name = true))
    Iff.rfl

instance : IsTotal GroupedHero heroLe := by
  constructor
  intro a b
  unfold heroLe
  rcases Nat.lt_trichotomy (heroTotal a) (heroTotal b) with h | h | h
  · exact Or.inr (Or.inl h)
  · rcases nameLe_total a.name b.name with hn | hn
    · exact Or.inl (Or.inr ⟨h.symm, hn⟩)
    · exact Or.inr (Or.inr ⟨h, hn⟩)
  · exact Or.inl (Or.inl h)

instance : IsTrans GroupedHero heroLe := by
  constructor
  intro a b c hab hbc
  unfold heroLe at *
  rcases hab with h1 | ⟨h1, hn1⟩ <;> rcases hbc with h2 | ⟨h2, hn2⟩
  · exact Or.inl (h2.trans h1)
  · exact Or.inl (by omega)
  · exact Or.inl (by omega)
  · exact Or.inr ⟨by omega, nameLe_trans hn1 hn2⟩

/-- One step of the grouping loop of groupHeroes: the JS Map keeps insertion
order and updates the existing entry in place, modelled as an association
list keyed by heroId (keys are unique by construction). -/
def addHero (name : String) (h : HeroMatch) : List GroupedHero → List GroupedHero
  | [] => [⟨h.heroId, name, if h.isWin then 1 else 0, if h.isWin then 0 else 1⟩]
  | g :: rest =>
    if g.heroId = h.heroId then
      (if h.isWin then { g with wins := g.wins + 1 } else { g with losses := g.losses + 1 })
        :: rest
    else g :: addHero name h rest

/-- The forEach loop of groupHeroes, carrying the running index used to look
up the display name of each match. -/
def groupHeroesAux (heroNames : List String) :
    Nat → List GroupedHero → List HeroMatch → List GroupedHero
  | _, acc, [] => acc
  | i, acc, h :: rest =>
      groupHeroesAux heroNames (i + 1) (addHero ((heroNames.get? i).getD "") h acc) rest

/-- groupHeroes from src/formatter.ts: group by heroId counting wins and
losses, then sort by total games descending with ties broken by name.
An out-of-range name index is undefined in JS and modelled as "". -/
def groupHeroes (heroes : List HeroMatch) (heroNames : List String) : List GroupedHero :=
  List.insertionSort heroLe (groupHeroesAux heroNames 0 [] heroes)

/-- The sortWithTiebreaker comparator as a reflexive relation: tieLe holds
when the comparator result is not positive.  The comparator returns the
difference of the metric values in the requested direction and falls back
to localeCompare of the player names on a zero difference. -/
def tieLe (getValue : PlayerStats → Rat) (ascending : Bool) (a b : PlayerStats) : Prop :=
  match ascending with
  | true => getValue a - getValue b < 0 ∨
      (getValue a - getValue b = 0 ∧ nameLe a.playerName b.playerName = true)
  | false => getValue b - getValue a < 0 ∨
      (getValue b - getValue a = 0 ∧ nameLe a.playerName b.playerName = true)

instance (getValue : PlayerStats → Rat) (ascending : Bool) :
    DecidableRel (tieLe getValue ascending) := fun a b =>
  match ascending with
  | true => decidable_of_iff (getValue a - getValue b < 0 ∨
      (getValue a - getValue b = 0 ∧ nameLe a.playerName b.playerName = true)) Iff.rfl
  | false => decidable_of_iff (getValue b - getValue a < 0 ∨
      (getValue b - getValue a = 0 ∧ nameLe a.playerName b.playerName = true)) Iff.rfl

instance (getValue : PlayerStats → Rat) (ascending : Bool) :
    IsTotal PlayerStats (tieLe getValue ascending) := by
  constructor
  intro a b
  cases ascending <;> unfold tieLe <;>
    rcases lt_trichotomy (getValue a) (getValue b) with h | h | h
  · exact Or.inr (Or.inl (by linarith))
  · rcases nameLe_total a.playerName b.playerName with hn | hn
    · exact Or.inl (Or.inr ⟨by linarith, hn⟩)
    · exact Or.inr (Or.inr ⟨by linarith, hn⟩)
  · exact Or.inl (Or.inl (by linarith))
  · exact Or.inl (Or.inl (by linarith))
  · rcases nameLe_total a.playerName b.playerName with hn | hn
    · exact Or.inl (Or.inr ⟨by linarith, hn⟩)
    · exact Or.inr (Or.inr ⟨by linarith, hn⟩)
  · exact Or.inr (Or.inl (by linarith))

instance (getValue : PlayerStats → Rat) (ascending : Bool) :
    IsTrans PlayerStats (tieLe getValue ascending) := by
  constructor
  intro a b c hab hbc
  cases ascending <;> unfold tieLe at * <;>
    rcases hab with h1 | ⟨h1, hn1⟩ <;> rcases hbc with h2 | ⟨h2, hn2⟩
  · exact Or.inl (by linarith)
  · exact Or.inl (by linarith)
  · exact Or.inl (by linarith)
  · exact Or.inr ⟨by linarith, nameLe_trans hn1 hn2⟩
  · exact Or.inl (by linarith)
  · exact Or.inl (by linarith)
  · exact Or.inl (by linarith)
  · exact Or.inr ⟨by linarith, nameLe_trans hn1 hn2⟩

/-- sortWithTiebreaker from src/formatter.ts: stable sort by the metric in
the given direction, ties broken by ascending player name. -/
def sortWithTiebreaker (arr : List PlayerStats) (getValue : PlayerStats → Rat)
    (ascending : Bool) : List PlayerStats :=
  List.insertionSort (tieLe getValue ascending) arr

/-- The comparator of the Везунчик (lucky) category as a reflexive relation:
win rate descending, ties broken by ascending avgKda (missing avgKda read
as 0), with no name tiebreak. -/
def luckyLe (a b : PlayerStats) : Prop :=
  b.winRate - a.winRate < 0 ∨
    (b.winRate - a.winRate = 0 ∧ a.avgKda.getD 0 - b.avgKda.getD 0 ≤ 0)

instance : DecidableRel luckyLe := fun a b =>
  decidable_of_iff (b.winRate - a.winRate < 0 ∨
    (b.winRate - a.winRate = 0 ∧ a.avgKda.getD 0 - b.avgKda.getD 0 ≤ 0)) Iff.rfl

instance : IsTotal PlayerStats luckyLe := by
  constructor
  intro a b
  unfold luckyLe
  rcases lt_trichotomy a.winRate b.winRate with h | h | h
  · exact Or.inr (Or.inl (by omega))
  · rcases le_total (a.avgKda.getD 0) (b.avgKda.getD 0) with hk | hk
    · exact Or.inl (Or.inr ⟨by omega, by linarith⟩)
    · exact Or.inr (Or.inr ⟨by omega, by linarith⟩)
  · exact Or.inl (Or.inl (by omega))

instance : IsTrans PlayerStats luckyLe := by
  constructor
  intro a b c hab hbc
  unfold luckyLe at *
  rcases hab with h1 | ⟨h1, hk1⟩ <;> rcases hbc with h2 | ⟨h2, hk2⟩
  · exact Or.inl (by omega)
  · exact Or.inl (by omega)
  · exact Or.inl (by omega)
  · exact Or.inr ⟨by omega, by linarith⟩

/-- Grouped heroes of one player as seen by the Клоун category. -/
def clownGroups (heroNamesMap : List (Nat × List String)) (p : PlayerStats) :
    List GroupedHero :=
  groupHeroes p.heroes ((heroNamesMap.lookup p.playerId).getD [])

/-- The eligibility filter of the Везунчик category: win rate at least 60
with a defined avgKda below 2. -/
def luckyFilter (activePlayers : List PlayerStats) : List PlayerStats :=
  activePlayers.filter fun p =>
    decide (60 ≤ p.winRate) && p.avgKda.isSome && decide (p.avgKda.getD 0 < 2)

/-- The Клоун loop of calculateNominations: scan the players in input order
and award the first player who played at least 70 percent of their games on
one hero with a win rate below 50 percent on that hero; the loop breaks
after the first award. -/
def clownScan (heroNamesMap : List (Nat × List String)) :
    List PlayerStats → List Nomination
  | [] => []
  | p :: rest =>
    match clownGroups heroNamesMap p with
    | [] => clownScan heroNamesMap rest
    | mostPlayed :: _ =>
      let totalGames := mostPlayed.wins + mostPlayed.losses
      let heroShare : Rat := (totalGames : Rat) / (p.totalMatches : Rat)
      let heroWinRate : Rat :=
        if 0 < totalGames then ((mostPlayed.wins : Rat) / (totalGames : Rat)) * 100 else 0
      if 7/10 ≤ heroShare ∧ heroWinRate < 50 then [⟨"Клоун", p, some mostPlayed.name⟩]
      else clownScan heroNamesMap rest

/-- The award gate of the Клоун category for one player: the most played
hero (head of the grouped list) covers at least 70 percent of the games of
the player and has a win rate below 50 percent on that hero. -/
def clownGate (heroNamesMap : List (Nat × List String)) (p : PlayerStats) : Bool :=
  match clownGroups heroNamesMap p with
  | [] => false
  | mostPlayed :: _ =>
    decide ((7:Rat)/10 ≤ ((mostPlayed.wins + mostPlayed.losses : Nat) : Rat) /
        (p.totalMatches : Rat) ∧
      (if 0 < mostPlayed.wins + mostPlayed.losses then
        ((mostPlayed.wins : Rat) / (((mostPlayed.wins + mostPlayed.losses : Nat)) : Rat)) * 100
      else 0) < 50)

/-- calculateNominations from src/formatter.ts.  The hero-name map is an
association list keyed by playerId.  Nominations are produced in source
order: Лузер, Фидер, Тащер, Гей, Бот, Задрот, Везунчик, Клоун; the
categories guarded by an if in the source contribute an empty segment when
the guard fails.  Indexing sorted[0] in the source is headI here (the
guards make the lists nonempty). -/
def calculateNominations (activePlayers : List PlayerStats)
    (heroNamesMap : List (Nat × List String)) : List Nomination :=
  if activePlayers.length < 2 then [] else
  let sortedByWinRate := sortWithTiebreaker activePlayers (fun p => (p.winRate : Rat)) true
  let loser := sortedByWinRate.headI
  let sortedByDeaths := sortWithTiebreaker activePlayers
      (fun p => (p.totalDeaths : Rat) / (p.totalMatches : Rat)) false
  let feeder := sortedByDeaths.headI
  let playersWithKda := activePlayers.filter fun p => p.avgKda.isSome
  let carryNoms : List Nomination :=
    if 0 < playersWithKda.length then
      [⟨"Тащер", (sortWithTiebreaker playersWithKda (fun p => p.avgKda.getD 0) false).headI,
        none⟩]
    else []
  let playersWithKills := activePlayers.filter fun p => decide (0 < p.totalKills)
  let gayNoms : List Nomination :=
    if 0 < playersWithKills.length then
      [⟨"Гей", (sortWithTiebreaker playersWithKills
          (fun p => (p.totalAssists : Rat) / (p.totalKills : Rat)) false).headI, none⟩]
    else []
  let sortedByParticipation := sortWithTiebreaker activePlayers
      (fun p => ((p.totalKills : Rat) + (p.totalAssists : Rat)) / (p.totalMatches : Rat)) true
  let bot := sortedByParticipation.headI
  let avgKillsAssists :=
    round1 (((bot.totalKills : Rat) + (bot.totalAssists : Rat)) / (bot.totalMatches : Rat))
  let botNoms : List Nomination :=
    if avgKillsAssists < 10 then [⟨"Бот", bot, none⟩] else []
  let sortedByMatches := sortWithTiebreaker activePlayers (fun p => (p.totalMatches : Rat)) false
  let grinder := sortedByMatches.headI
  let luckyPlayers := luckyFilter activePlayers
  let luckyNoms : List Nomination :=
    if 0 < luckyPlayers.length then
      [⟨"Везунчик", (List.insertionSort luckyLe luckyPlayers).headI, none⟩]
    else []
  let clownNoms := clownScan heroNamesMap activePlayers
  [⟨"Лузер", loser, none⟩, ⟨"Фидер", feeder, none⟩] ++ carryNoms ++ gayNoms ++ botNoms
    ++ [⟨"Задрот", grinder, none⟩] ++ luckyNoms ++ clownNoms

/-! ## Generic facts about the comparator relations and stable sorting -/

theorem charListLe_refl : ∀ a : List Char, charListLe a a = true := by
  intro a
  induction a with
  | nil => rfl
  | cons x xs ih => simp [charListLe, ih]

theorem nameLe_refl (a : String) : nameLe a a = true := charListLe_refl a.data

theorem tieLe_refl (getValue : PlayerStats → Rat) (ascending : Bool) (a : PlayerStats) :
    tieLe getValue ascending a a := by
  cases ascending <;> exact Or.inr ⟨sub_self _, nameLe_refl _⟩

theorem luckyLe_refl (a : PlayerStats) : luckyLe a a :=
  Or.inr ⟨sub_self _, le_of_eq (sub_self _)⟩

theorem heroLe_refl (g : GroupedHero) : heroLe g g := Or.inr ⟨rfl, nameLe_refl _⟩

theorem sorted_headI_le {α : Type} [Inhabited α] {r : α → α → Prop} (hrefl : ∀ a, r a a)
    {l : List α} (hs : List.Sorted r l) {y : α} (hy : y ∈ l) : r l.headI y := by
  cases l with
  | nil => cases hy
  | cons x xs =>
    rcases List.mem_cons.mp hy with rfl | hy2
    · exact hrefl y
    · exact (List.sorted_cons.mp hs).1 y hy2

theorem sortWithTiebreaker_perm (arr : List PlayerStats) (getValue : PlayerStats → Rat)
    (ascending : Bool) : (sortWithTiebreaker arr getValue ascending).Perm arr :=
  List.perm_insertionSort _ arr

theorem sortWithTiebreaker_sorted (arr : List PlayerStats) (getValue : PlayerStats → Rat)
    (ascending : Bool) :
    List.Sorted (tieLe getValue ascending) (sortWithTiebreaker arr getValue ascending) :=
  List.sorted_insertionSort _ arr

theorem head?_eq_headI {α : Type} [Inhabited α] {l : List α} (h : l ≠ []) :
    l.head? = some l.headI := by
  cases l with
  | nil => exact absurd rfl h
  | cons x xs => rfl

/-! ## Claim theorems -/

/-- C4: for every input with fewer than 2 active players
(activePlayers.length < 2), calculateNominations returns the empty list. -/
theorem calculateNominations_empty_of_lt_two (activePlayers : List PlayerStats)
    (heroNamesMap : List (Nat × List String)) (h : activePlayers.length < 2) :
    calculateNominations activePlayers heroNamesMap = [] := by
  unfold calculateNominations
  rw [if_pos h]

/-- Witness for the C4 theorem at a singleton player list. -/
theorem calculateNominations_empty_of_lt_two_witness :
    ([default] : List PlayerStats).length < 2 ∧
      calculateNominations [default] [] = [] :=
  ⟨by simp, calculateNominations_empty_of_lt_two [default] [] (by simp)⟩

/-- C6: for every period and every now, the window end is none for today,
week and month; only yesterday is bounded and its end equals the today
window start for the same now. -/
theorem getPeriodEndTimestamp_spec (period : StatsPeriod) (nowMs : Int) :
    (period ≠ .yesterday → getPeriodEndTimestamp period nowMs = none) ∧
    (period = .yesterday →
      getPeriodEndTimestamp period nowMs = some (getPeriodStartTimestamp .today nowMs)) := by
  constructor <;> intro h
  · simp [getPeriodEndTimestamp, h]
  · simp [getPeriodEndTimestamp, h]

/-- Witness for the C6 theorem at the week and yesterday periods. -/
theorem getPeriodEndTimestamp_spec_witness :
    (StatsPeriod.week ≠ .yesterday ∧ getPeriodEndTimestamp .week 0 = none) ∧
    (StatsPeriod.yesterday = .yesterday ∧
      getPeriodEndTimestamp .yesterday 0 = some (getPeriodStartTimestamp .today 0)) :=
  ⟨⟨by decide, (getPeriodEndTimestamp_spec .week 0).1 (by decide)⟩,
   ⟨rfl, (getPeriodEndTimestamp_spec .yesterday 0).2 rfl⟩⟩

/-- C7: the match filter keeps a match exactly when
startTime is at least the window start and, unless the window end is null,
strictly below the window end; the result is the subsequence of the input
satisfying this predicate. -/
theorem filterMatchesByPeriod_spec (matchList : List RecentMatch) (period : StatsPeriod)
    (nowMs : Int) :
    filterMatchesByPeriod matchList period nowMs = matchList.filter fun m =>
      decide (getPeriodStartTimestamp period nowMs ≤ m.start_time) &&
        (getPeriodEndTimestamp period nowMs).elim true fun e => decide (m.start_time < e) := by
  unfold filterMatchesByPeriod
  apply List.filter_congr
  intro m _
  by_cases hs : m.start_time < getPeriodStartTimestamp period nowMs
  · simp [hs, not_le.mpr hs]
  · cases he : getPeriodEndTimestamp period nowMs with
    | none => simp [hs, not_lt.mp hs]
    | some e =>
      by_cases hee : e ≤ m.start_time
      · simp [hs, hee, not_lt.mp hs, not_lt.mpr hee]
      · simp [hs, hee, not_lt.mp hs, not_le.mp hee]

/-- C10: the aggregate is internally consistent: wins plus losses equals
totalMatches, and heroes has exactly one entry per counted match in match
order, so heroes.length equals totalMatches. -/
theorem calculateStats_consistent (playerId : Nat) (playerName : String)
    (matchList : List RecentMatch) (period : StatsPeriod) (nowMs : Int)
    (avgApm : Option Rat) (rank : Option Int) :
    (calculateStats playerId playerName matchList period nowMs avgApm rank).wins +
        (calculateStats playerId playerName matchList period nowMs avgApm rank).losses =
      (calculateStats playerId playerName matchList period nowMs avgApm rank).totalMatches ∧
    (calculateStats playerId playerName matchList period nowMs avgApm rank).heroes =
      (filterMatchesByPeriod matchList period nowMs).map (fun m => ⟨m.hero_id, isWin m⟩) ∧
    (calculateStats playerId playerName matchList period nowMs avgApm rank).heroes.length =
      (calculateStats playerId playerName matchList period nowMs avgApm rank).totalMatches := by
  unfold calculateStats
  dsimp only
  refine ⟨?_, rfl, ?_⟩
  · have hle := List.length_filter_le isWin (filterMatchesByPeriod matchList period nowMs)
    omega
  · exact List.length_map _ _

/-! ## The month window (claim C5) -/

theorem dateUTCms_day_div (y m : Int) : dateUTCms y m 1 0 / 86400000 = makeDay y m 1 := by
  unfold dateUTCms; omega

/-- Reading back the calendar components of Date.UTC(year, month - 1, 1)
performs the month rollover: January (month 0) wraps to December of the
previous year, any other month just decrements. -/
theorem makeDay_month_rollover (y m : Int) (h0 : 0 ≤ m) (h12 : m < 12) :
    civilFromDays (makeDay y (m - 1) 1) =
      (if m = 0 then (⟨y - 1, 11, 1⟩ : CivilDate) else ⟨y, m - 1, 1⟩) := by
  by_cases h : m = 0
  · subst h
    have e : makeDay y (0 - 1) 1 = makeDay (y - 1) 11 1 := by
      unfold makeDay
      have e1 : y + (0 - 1 : Int) / 12 = y - 1 + (11 : Int) / 12 := by omega
      have e2 : ((0 : Int) - 1) % 12 = (11 : Int) % 12 := by omega
      rw [e1, e2]
    rw [e, civilFromDays_makeDay_first (y - 1) 11 (by omega) (by omega)]
    simp
  · rw [civilFromDays_makeDay_first y (m - 1) (by omega) (by omega)]
    simp [h]

theorem getMskTimeComponents_month_bound (nowMs : Int) :
    0 ≤ (getMskTimeComponents nowMs).month ∧ (getMskTimeComponents nowMs).month < 12 := by
  unfold getMskTimeComponents civilFromDays
  exact monthFromDayOfYear_bound _ _

/-- Specification-side description of the month window start, following the
wording of the spec: the window starts at 06:00 MSK on the 1st of the
current civil month, except that when now is the 1st before 06:00 the
window starts at 06:00 on the 1st of the previous month, with the year
decremented when the current month is January. -/
def monthWindowStartSpec (nowMs : Int) : Int :=
  let msk := getMskTimeComponents nowMs
  if msk.date = 1 ∧ msk.hours < DAY_START_HOUR_MSK then
    if msk.month = 0 then mskToUtcTimestamp (msk.year - 1) 11 1 DAY_START_HOUR_MSK
    else mskToUtcTimestamp msk.year (msk.month - 1) 1 DAY_START_HOUR_MSK
  else mskToUtcTimestamp msk.year msk.month 1 DAY_START_HOUR_MSK

/-- C5: for every now, the month period resolves to 06:00 MSK on the 1st of
the current civil month, rolling back to the previous month (with year
rollover at January) when now is the 1st before 06:00; in particular
resolving month at 2026-01-01T05:00 MSK (epoch ms 1767232800000) yields
the December 2025 window start 2025-12-01T06:00 MSK (epoch s 1764558000),
not a January 2026 window. -/
theorem getPeriodStartTimestamp_month_spec :
    (∀ nowMs : Int, getPeriodStartTimestamp .month nowMs = monthWindowStartSpec nowMs) ∧
    getPeriodStartTimestamp .month 1767232800000 = 1764558000 ∧
    getMskTimeComponents 1767232800000 = ⟨2026, 0, 1, 5, 4⟩ ∧
    getMskTimeComponents (1764558000 * 1000) = ⟨2025, 11, 1, 6, 1⟩ := by
  refine ⟨?_, by decide, by decide, by decide⟩
  intro nowMs
  obtain ⟨hm0, hm12⟩ := getMskTimeComponents_month_bound nowMs
  unfold getPeriodStartTimestamp monthWindowStartSpec
  dsimp only
  by_cases hc : (getMskTimeComponents nowMs).date = 1 ∧
      (getMskTimeComponents nowMs).hours < DAY_START_HOUR_MSK
  · rw [if_pos hc, if_pos hc, dateUTCms_day_div,
      makeDay_month_rollover _ _ hm0 hm12]
    by_cases h0 : (getMskTimeComponents nowMs).month = 0
    · simp [h0]
    · simp [h0]
  · rw [if_neg hc, if_neg hc]

/-! ## Aggregated KDA (claim C8) -/

theorem foldl_add_eq {α : Type} (f : α → Nat) :
    ∀ (l : List α) (n : Nat), l.foldl (fun sum m => sum + f m) n = n + (l.map f).sum := by
  intro l
  induction l with
  | nil => intro n; simp
  | cons x xs ih =>
    intro n
    simp only [List.foldl_cons, List.map_cons, List.sum_cons, ih]
    omega

/-- Example match of the C8 scenario: a win with 10 kills, 1 death and
2 assists on 2026-01-15 at 10:00 MSK. -/
def c8m1 : RecentMatch := ⟨100, 1, true, 1768460400, 2000, 5, 10, 1, 2⟩

/-- Example match of the C8 scenario: a loss with 0 kills, 10 deaths and
0 assists on 2026-01-15 at 20:00 MSK. -/
def c8m2 : RecentMatch := ⟨101, 1, false, 1768496400, 2000, 6, 0, 10, 0⟩

/-- C8: avgKda is computed from the kills, deaths and assists summed over
the filtered matches of the period: (K + A) / D when D is positive, else
K + A, rounded to 2 decimal places; it is none when no match is counted.
Matches with K/D/A 10/1/2 and 0/10/0 give avgKda (10+0+2+0)/(1+10) rounded
to 1.09. -/
theorem calculateStats_avgKda_spec :
    (∀ (playerId : Nat) (playerName : String) (matchList : List RecentMatch)
        (period : StatsPeriod) (nowMs : Int) (avgApm : Option Rat) (rank : Option Int),
      ((calculateStats playerId playerName matchList period nowMs avgApm rank).totalMatches = 0 →
        (calculateStats playerId playerName matchList period nowMs avgApm rank).avgKda = none) ∧
      (0 < (calculateStats playerId playerName matchList period nowMs avgApm rank).totalMatches →
        (calculateStats playerId playerName matchList period nowMs avgApm rank).avgKda =
          some (round2
            (if 0 < (((filterMatchesByPeriod matchList period nowMs).map
                  (fun m => m.deaths)).sum : Nat) then
              (((((filterMatchesByPeriod matchList period nowMs).map
                    (fun m => m.kills)).sum : Nat) : Rat) +
                ((((filterMatchesByPeriod matchList period nowMs).map
                    (fun m => m.assists)).sum : Nat) : Rat)) /
                ((((filterMatchesByPeriod matchList period nowMs).map
                    (fun m => m.deaths)).sum : Nat) : Rat)
            else
              ((((filterMatchesByPeriod matchList period nowMs).map
                    (fun m => m.kills)).sum : Nat) : Rat) +
                ((((filterMatchesByPeriod matchList period nowMs).map
                    (fun m => m.assists)).sum : Nat) : Rat))))) ∧
    (calculateStats 1 "p" [c8m1, c8m2] .today 1768467600000 none none).avgKda =
      some (109 / 100) := by
  constructor
  · intro playerId playerName matchList period nowMs avgApm rank
    unfold calculateStats
    dsimp only
    constructor
    · intro h
      simp only [h, lt_irrefl, if_false]
    · intro h
      rw [if_pos h]
      simp only [foldl_add_eq, Nat.zero_add]
  · have hf : filterMatchesByPeriod [c8m1, c8m2] .today 1768467600000 = [c8m1, c8m2] := by
      decide
    unfold calculateStats
    rw [hf]
    norm_num [c8m1, c8m2, isWin, round2, jsRound]

/-! ## Precondition behaviour of the nomination engine (claim C2) -/

/-- An inactive player: zero matches, as produced by calculateStats for an
empty period. -/
def c2ann : PlayerStats := ⟨1, "ann", 0, 0, 0, 0, [], none, none, none, 0, 0, 0, 0, 0, 0, 0, 0, 0⟩

/-- An active player with one won match. -/
def c2bob : PlayerStats :=
  ⟨2, "bob", 1, 0, 1, 100, [⟨9, true⟩], none, some 30, none, 20, 1, 10, 1800, 1800, 0, 0, 0, 0⟩

def c2map : List (Nat × List String) := [(1, []), (2, ["zzz"])]

/-- C2 (amended): calculateNominations has no precondition check on
totalMatches.  With at least two players the computation always proceeds,
and the first returned nomination is Лузер awarded to the head of the
win-rate ranking, irrespective of the totalMatches values in the input. -/
theorem calculateNominations_no_precondition (activePlayers : List PlayerStats)
    (heroNamesMap : List (Nat × List String)) (h : 2 ≤ activePlayers.length) :
    ∃ w, (sortWithTiebreaker activePlayers (fun p => (p.winRate : Rat)) true).head? = some w ∧
      (calculateNominations activePlayers heroNamesMap).head? = some ⟨"Лузер", w, none⟩ := by
  have hne : sortWithTiebreaker activePlayers (fun p => (p.winRate : Rat)) true ≠ [] := by
    intro he
    have hl := (sortWithTiebreaker_perm activePlayers (fun p => (p.winRate : Rat)) true).length_eq
    rw [he] at hl
    simp at hl
    omega
  refine ⟨(sortWithTiebreaker activePlayers (fun p => (p.winRate : Rat)) true).headI,
    head?_eq_headI hne, ?_⟩
  unfold calculateNominations
  rw [if_neg (by omega)]
  rfl

/-- Witness for the C2 theorem: the input contains a player with
totalMatches = 0 and is processed anyway. -/
theorem calculateNominations_no_precondition_witness :
    2 ≤ ([c2ann, c2bob] : List PlayerStats).length ∧ c2ann.totalMatches = 0 ∧
    (∃ w, (sortWithTiebreaker [c2ann, c2bob] (fun p => (p.winRate : Rat)) true).head? = some w ∧
      (calculateNominations [c2ann, c2bob] c2map).head? = some ⟨"Лузер", w, none⟩) :=
  ⟨by simp, rfl, calculateNominations_no_precondition [c2ann, c2bob] c2map (by simp)⟩

/-- C2 counterexample: a list containing an inactive player
(totalMatches = 0) is not rejected by calculateNominations: the call
returns normally and the inactive player even wins the Лузер nomination,
having the lowest win rate.  Only the NaN-free first nomination is
asserted here; the divisions the later categories perform on the inactive
player are NaN in JS (0 in this Rat model). -/
theorem calculateNominations_accepts_inactive :
    c2ann.totalMatches = 0 ∧
    (calculateNominations [c2ann, c2bob] c2map).head? = some ⟨"Лузер", c2ann, none⟩ := by
  refine ⟨rfl, ?_⟩
  have hg1 : clownGroups c2map c2ann = [] := by decide
  have hg2 : clownGroups c2map c2bob = [⟨9, "zzz", 1, 0⟩] := by decide
  simp only [c2ann, c2bob, c2map] at hg1 hg2 ⊢
  norm_num [calculateNominations, sortWithTiebreaker, List.insertionSort, List.orderedInsert,
    tieLe, luckyLe, luckyFilter, clownScan, hg1, hg2, round1, jsRound, List.headI]

/-! ## The missing nomination cap (claim C1) -/

/-- A player who is top ranked in the Лузер, Фидер, Бот and Задрот
categories: worst win rate, most deaths per game, lowest kills+assists per
game and most matches. -/
def c1ann : PlayerStats :=
  ⟨1, "ann", 0, 5, 5, 0, [⟨1, false⟩, ⟨1, false⟩, ⟨2, false⟩, ⟨2, false⟩, ⟨3, false⟩],
   none, some 0, none, 0, 50, 0, 9000, 1800, 0, 0, 0, 0⟩

/-- The second active player, top ranked in the remaining categories. -/
def c1bob : PlayerStats :=
  ⟨2, "bob", 1, 0, 1, 100, [⟨9, true⟩], none, some 30, none, 20, 1, 10, 1800, 1800, 0, 0, 0, 0⟩

def c1map : List (Nat × List String) :=
  [(1, ["aaa", "aaa", "bbb", "bbb", "ccc"]), (2, ["zzz"])]

/-- C1 (code_bug evidence): calculateNominations enforces no per-player
cap.  With ann top ranked in exactly the four categories Лузер, Фидер,
Бот and Задрот, ann receives all four nominations instead of the two the
cap would allow. -/
theorem calculateNominations_no_cap :
    calculateNominations [c1ann, c1bob] c1map =
      [⟨"Лузер", c1ann, none⟩, ⟨"Фидер", c1ann, none⟩, ⟨"Тащер", c1bob, none⟩,
       ⟨"Гей", c1bob, none⟩, ⟨"Бот", c1ann, none⟩, ⟨"Задрот", c1ann, none⟩] ∧
    ((calculateNominations [c1ann, c1bob] c1map).filter fun n =>
        n.player.playerName == "ann").length = 4 := by
  have hg1 : clownGroups c1map c1ann =
      [⟨1, "aaa", 0, 2⟩, ⟨2, "bbb", 0, 2⟩, ⟨3, "ccc", 0, 1⟩] := by decide
  have hg2 : clownGroups c1map c1bob = [⟨9, "zzz", 1, 0⟩] := by decide
  have hfull : calculateNominations [c1ann, c1bob] c1map =
      [⟨"Лузер", c1ann, none⟩, ⟨"Фидер", c1ann, none⟩, ⟨"Тащер", c1bob, none⟩,
       ⟨"Гей", c1bob, none⟩, ⟨"Бот", c1ann, none⟩, ⟨"Задрот", c1ann, none⟩] := by
    simp only [c1ann, c1bob, c1map] at hg1 hg2 ⊢
    norm_num [calculateNominations, sortWithTiebreaker, List.insertionSort, List.orderedInsert,
      tieLe, luckyLe, luckyFilter, clownScan, hg1, hg2, round1, jsRound, List.headI]
  refine ⟨hfull, ?_⟩
  rw [hfull]
  decide

/-- Witness for the C8 theorem: the zero-match case yields none and the
example scenario has a positive match count. -/
theorem calculateStats_avgKda_spec_witness :
    (calculateStats 1 "p" ([] : List RecentMatch) .today 0 none none).totalMatches = 0 ∧
    (calculateStats 1 "p" ([] : List RecentMatch) .today 0 none none).avgKda = none ∧
    0 < (calculateStats 1 "p" [c8m1, c8m2] .today 1768467600000 none none).totalMatches :=
  ⟨rfl, (calculateStats_avgKda_spec.1 1 "p" [] .today 0 none none).1 rfl, by decide⟩

/-! ## Ranking and tie-breaking of the award categories (claim C3) -/

theorem clownScan_eq_find (heroNamesMap : List (Nat × List String)) :
    ∀ ps : List PlayerStats, clownScan heroNamesMap ps =
      match ps.find? (clownGate heroNamesMap) with
      | none => []
      | some p => [⟨"Клоун", p, some (clownGroups heroNamesMap p).headI.name⟩] := by
  intro ps
  induction ps with
  | nil => rfl
  | cons p rest ih =>
    rw [List.find?_cons]
    unfold clownScan
    cases hg : clownGroups heroNamesMap p with
    | nil =>
      have hgate : clownGate heroNamesMap p = false := by
        unfold clownGate; rw [hg]
      rw [hgate]
      exact ih
    | cons mp tl =>
      dsimp only
      by_cases hcond : (7:Rat)/10 ≤ ((mp.wins + mp.losses : Nat) : Rat) / (p.totalMatches : Rat) ∧
          (if 0 < mp.wins + mp.losses then
            ((mp.wins : Rat) / (((mp.wins + mp.losses : Nat)) : Rat)) * 100
          else 0) < 50
      · have hgate : clownGate heroNamesMap p = true := by
          unfold clownGate; rw [hg]; exact decide_eq_true hcond
        rw [if_pos hcond, hgate]
        simp [hg]
      · have hgate : clownGate heroNamesMap p = false := by
          unfold clownGate; rw [hg]; exact decide_eq_false hcond
        rw [if_neg hcond, hgate]
        exact ih

/-- C3 (amended): the six categories sorted by sortWithTiebreaker rank by
the metric in their direction with ties broken by ascending name (the
result is a permutation of the candidates, pairwise ordered by the
comparator relation tieLe).  The Везунчик category instead ranks by win
rate descending with ties broken by ascending avgKda and otherwise input
order: its winner is maximal for luckyLe among the eligible candidates,
with no name tiebreak.  The Клоун category performs no ranking at all: it
awards the first player in input order passing its gate. -/
theorem ranking_tiebreak_spec :
    (∀ (arr : List PlayerStats) (getValue : PlayerStats → Rat) (ascending : Bool),
      (sortWithTiebreaker arr getValue ascending).Perm arr ∧
      List.Sorted (tieLe getValue ascending) (sortWithTiebreaker arr getValue ascending)) ∧
    (∀ (heroNamesMap : List (Nat × List String)) (ps : List PlayerStats),
      clownScan heroNamesMap ps =
        match ps.find? (clownGate heroNamesMap) with
        | none => []
        | some p => [⟨"Клоун", p, some (clownGroups heroNamesMap p).headI.name⟩]) ∧
    (∀ (ps : List PlayerStats) (q : PlayerStats), q ∈ luckyFilter ps →
      luckyLe (List.insertionSort luckyLe (luckyFilter ps)).headI q) := by
  refine ⟨fun arr f asc => ⟨sortWithTiebreaker_perm arr f asc,
      sortWithTiebreaker_sorted arr f asc⟩,
    clownScan_eq_find, ?_⟩
  intro ps q hq
  exact sorted_headI_le luckyLe_refl (List.sorted_insertionSort luckyLe (luckyFilter ps))
    ((List.perm_insertionSort luckyLe (luckyFilter ps)).mem_iff.mpr hq)

/-- Player earlier in the input of the C3 tie scenario, alphabetically
later. -/
def c3zed : PlayerStats :=
  ⟨1, "zed", 3, 2, 5, 60, [], none, some 1, none, 10, 10, 5, 9000, 1800, 0, 0, 0, 0⟩

/-- Player later in the input of the C3 tie scenario, alphabetically
first, with the same win rate and the same avgKda as c3zed. -/
def c3ann : PlayerStats :=
  ⟨2, "ann", 3, 2, 5, 60, [], none, some 1, none, 10, 10, 5, 9000, 1800, 0, 0, 0, 0⟩

def c3map : List (Nat × List String) := [(1, []), (2, [])]

/-- Witness for the amended C3 theorem at the tie scenario. -/
theorem ranking_tiebreak_spec_witness :
    c3zed ∈ luckyFilter [c3zed, c3ann] ∧
    luckyLe (List.insertionSort luckyLe (luckyFilter [c3zed, c3ann])).headI c3zed := by
  have hmem : c3zed ∈ luckyFilter [c3zed, c3ann] := by decide
  exact ⟨hmem, ranking_tiebreak_spec.2.2 [c3zed, c3ann] c3zed hmem⟩

/-- C3 counterexample: in the Везунчик category two candidates tied on the
metrics (equal win rate and equal avgKda) are not ordered by name: the
player earlier in the input (zed) wins although the other display name
(ann) is alphabetically first. -/
theorem lucky_tie_not_alphabetical :
    c3zed.winRate = c3ann.winRate ∧ c3zed.avgKda = c3ann.avgKda ∧
    nameLe "ann" "zed" = true ∧ nameLe "zed" "ann" = false ∧
    (calculateNominations [c3zed, c3ann] c3map).find? (fun n => n.title == "Везунчик") =
      some ⟨"Везунчик", c3zed, none⟩ := by
  refine ⟨rfl, rfl, by decide, by decide, ?_⟩
  have hz : nameLe "zed" "ann" = false := by decide
  have ha : nameLe "ann" "zed" = true := by decide
  have hg1 : clownGroups c3map c3zed = [] := by decide
  have hg2 : clownGroups c3map c3ann = [] := by decide
  have hfull : calculateNominations [c3zed, c3ann] c3map =
      [⟨"Лузер", c3ann, none⟩, ⟨"Фидер", c3ann, none⟩, ⟨"Тащер", c3ann, none⟩,
       ⟨"Гей", c3ann, none⟩, ⟨"Бот", c3ann, none⟩, ⟨"Задрот", c3ann, none⟩,
       ⟨"Везунчик", c3zed, none⟩] := by
    simp only [c3zed, c3ann, c3map] at hg1 hg2 ⊢
    norm_num [calculateNominations, sortWithTiebreaker, List.insertionSort, List.orderedInsert,
      tieLe, luckyLe, luckyFilter, clownScan, hg1, hg2, hz, ha, round1, jsRound, List.headI]
  rw [hfull]
  rfl

/-! ## Correctness of hero grouping (claim C9) -/

/-- Lookup of the group of a hero id in the accumulator of groupHeroes. -/
def findGroup : List GroupedHero → Nat → Option GroupedHero
  | [], _ => none
  | g :: rest, id => if g.heroId = id then some g else findGroup rest id

/-- Win count recorded for a hero id in the accumulator, 0 when absent. -/
def winsAt (acc : List GroupedHero) (id : Nat) : Nat :=
  ((findGroup acc id).map (fun g => g.wins)).getD 0

/-- Loss count recorded for a hero id in the accumulator, 0 when absent. -/
def lossesAt (acc : List GroupedHero) (id : Nat) : Nat :=
  ((findGroup acc id).map (fun g => g.losses)).getD 0

theorem addHero_ids (name : String) (h : HeroMatch) :
    ∀ acc : List GroupedHero, (addHero name h acc).map (fun g => g.heroId) =
      if h.heroId ∈ acc.map (fun g => g.heroId) then acc.map (fun g => g.heroId)
      else acc.map (fun g => g.heroId) ++ [h.heroId] := by
  intro acc
  induction acc with
  | nil => simp [addHero]
  | cons g rest ih =>
    unfold addHero
    by_cases hg : g.heroId = h.heroId
    · rw [if_pos hg]
      have hbump : ((if h.isWin then { g with wins := g.wins + 1 }
          else { g with losses := g.losses + 1 }) : GroupedHero).heroId = g.heroId := by
        cases h.isWin <;> rfl
      simp [hbump, hg.symm]
    · rw [if_neg hg]
      have hne : ¬ h.heroId = g.heroId := fun he => hg he.symm
      by_cases hmem : h.heroId ∈ rest.map (fun g => g.heroId)
      · simp [ih, hmem, hne]
      · simp [ih, hmem, hne]

theorem addHero_ids_mem (name : String) (h : HeroMatch) (acc : List GroupedHero) (id : Nat) :
    id ∈ (addHero name h acc).map (fun g => g.heroId) ↔
      id ∈ acc.map (fun g => g.heroId) ∨ id = h.heroId := by
  rw [addHero_ids]
  by_cases hmem : h.heroId ∈ acc.map (fun g => g.heroId)
  · rw [if_pos hmem]
    constructor
    · exact fun hi => Or.inl hi
    · rintro (hi | rfl)
      · exact hi
      · exact hmem
  · rw [if_neg hmem]
    simp [List.mem_append]

theorem addHero_ids_nodup (name : String) (h : HeroMatch) (acc : List GroupedHero)
    (hnd : (acc.map (fun g => g.heroId)).Nodup) :
    ((addHero name h acc).map (fun g => g.heroId)).Nodup := by
  rw [addHero_ids]
  by_cases hmem : h.heroId ∈ acc.map (fun g => g.heroId)
  · rw [if_pos hmem]; exact hnd
  · rw [if_neg hmem]
    refine List.Nodup.append hnd (List.nodup_singleton _) ?_
    intro a ha hb
    rw [List.mem_singleton] at hb
    exact hmem (hb ▸ ha)

theorem addHero_winsAt (name : String) (h : HeroMatch) :
    ∀ (acc : List GroupedHero) (id : Nat),
      winsAt (addHero name h acc) id =
        winsAt acc id + (if h.heroId = id ∧ h.isWin = true then 1 else 0) := by
  intro acc
  induction acc with
  | nil =>
    intro id
    cases hw : h.isWin <;> by_cases hid : h.heroId = id <;>
      simp [addHero, winsAt, findGroup, hw, hid]
  | cons g rest ih =>
    intro id
    unfold addHero
    by_cases hg : g.heroId = h.heroId
    · rw [if_pos hg]
      by_cases hid : h.heroId = id
      · cases hw : h.isWin <;>
          simp [winsAt, findGroup, hg.trans hid, hid, hw]
      · have hgid : ¬ g.heroId = id := fun he => hid (hg.symm.trans he)
        cases hw : h.isWin <;>
          simp [winsAt, findGroup, hgid, hid, hw]
    · rw [if_neg hg]
      by_cases hgid : g.heroId = id
      · have hid : ¬ (h.heroId = id ∧ h.isWin = true) := by
          rintro ⟨he, -⟩
          exact hg (hgid.trans he.symm)
        simp [winsAt, findGroup, hgid, hid]
      · simp only [winsAt, findGroup, if_neg hgid]
        simpa [winsAt] using ih id

theorem addHero_lossesAt (name : String) (h : HeroMatch) :
    ∀ (acc : List GroupedHero) (id : Nat),
      lossesAt (addHero name h acc) id =
        lossesAt acc id + (if h.heroId = id ∧ h.isWin = false then 1 else 0) := by
  intro acc
  induction acc with
  | nil =>
    intro id
    cases hw : h.isWin <;> by_cases hid : h.heroId = id <;>
      simp [addHero, lossesAt, findGroup, hw, hid]
  | cons g rest ih =>
    intro id
    unfold addHero
    by_cases hg : g.heroId = h.heroId
    · rw [if_pos hg]
      by_cases hid : h.heroId = id
      · cases hw : h.isWin <;>
          simp [lossesAt, findGroup, hg.trans hid, hid, hw]
      · have hgid : ¬ g.heroId = id := fun he => hid (hg.symm.trans he)
        cases hw : h.isWin <;>
          simp [lossesAt, findGroup, hgid, hid, hw]
    · rw [if_neg hg]
      by_cases hgid : g.heroId = id
      · have hid : ¬ (h.heroId = id ∧ h.isWin = false) := by
          rintro ⟨he, -⟩
          exact hg (hgid.trans he.symm)
        simp [lossesAt, findGroup, hgid, hid]
      · simp only [lossesAt, findGroup, if_neg hgid]
        simpa [lossesAt] using ih id

theorem groupHeroesAux_spec (names : List String) :
    ∀ (hs : List HeroMatch) (i : Nat) (acc : List GroupedHero) (seen : List HeroMatch),
      (acc.map (fun g => g.heroId)).Nodup →
      (∀ id, id ∈ acc.map (fun g => g.heroId) ↔ id ∈ seen.map (fun x => x.heroId)) →
      (∀ id, winsAt acc id = seen.countP (fun x => x.heroId == id && x.isWin) ∧
             lossesAt acc id = seen.countP (fun x => x.heroId == id && !x.isWin)) →
      ((groupHeroesAux names i acc hs).map (fun g => g.heroId)).Nodup ∧
      (∀ id, id ∈ (groupHeroesAux names i acc hs).map (fun g => g.heroId) ↔
        id ∈ (seen ++ hs).map (fun x => x.heroId)) ∧
      (∀ id, winsAt (groupHeroesAux names i acc hs) id =
               (seen ++ hs).countP (fun x => x.heroId == id && x.isWin) ∧
             lossesAt (groupHeroesAux names i acc hs) id =
               (seen ++ hs).countP (fun x => x.heroId == id && !x.isWin)) := by
  intro hs
  induction hs with
  | nil =>
    intro i acc seen h1 h2 h3
    simp only [groupHeroesAux, List.append_nil]
    exact ⟨h1, h2, h3⟩
  | cons h rest ih =>
    intro i acc seen h1 h2 h3
    have hstep := ih (i + 1) (addHero ((names.get? i).getD "") h acc) (seen ++ [h])
      (addHero_ids_nodup _ h acc h1)
      (by
        intro id
        rw [addHero_ids_mem _ h acc id, h2 id]
        simp)
      (by
        intro id
        rw [addHero_winsAt _ h acc id, addHero_lossesAt _ h acc id,
          (h3 id).1, (h3 id).2]
        constructor <;>
          cases hw : h.isWin <;>
          by_cases hid : h.heroId = id <;>
          simp [List.countP_append, List.countP_cons, hid, hw])
    simpa [groupHeroesAux, List.append_assoc] using hstep

theorem findGroup_eq_of_nodup :
    ∀ (acc : List GroupedHero) (g : GroupedHero), (acc.map (fun x => x.heroId)).Nodup →
      g ∈ acc → findGroup acc g.heroId = some g := by
  intro acc
  induction acc with
  | nil => intro g _ hg; cases hg
  | cons a rest ih =>
    intro g hnd hg
    simp only [List.map_cons, List.nodup_cons] at hnd
    rcases List.mem_cons.mp hg with rfl | hg2
    · simp [findGroup]
    · have hne : a.heroId ≠ g.heroId := by
        intro he
        exact hnd.1 (he ▸ List.mem_map.mpr ⟨g, hg2, rfl⟩)
      rw [findGroup, if_neg hne]
      exact ih g hnd.2 hg2

/-- C9: groupHeroes groups the per-match hero outcomes by heroId (one group
per distinct hero, its wins and losses counting exactly the winning and
losing outcomes of that hero), and returns the groups sorted by total
games descending with ties broken by ascending display name; in
particular the input A(win), A(loss), B(win) yields exactly the groups
A 1W/1L then B 1W/0L. -/
theorem groupHeroes_spec :
    (∀ (heroes : List HeroMatch) (heroNames : List String),
      ((groupHeroes heroes heroNames).map (fun g => g.heroId)).Nodup ∧
      (∀ id : Nat, id ∈ (groupHeroes heroes heroNames).map (fun g => g.heroId) ↔
        id ∈ heroes.map (fun x => x.heroId)) ∧
      (∀ g ∈ groupHeroes heroes heroNames,
        g.wins = heroes.countP (fun x => x.heroId == g.heroId && x.isWin) ∧
        g.losses = heroes.countP (fun x => x.heroId == g.heroId && !x.isWin)) ∧
      List.Sorted heroLe (groupHeroes heroes heroNames)) ∧
    groupHeroes [⟨1, true⟩, ⟨1, false⟩, ⟨2, true⟩] ["A", "A", "B"] =
      [⟨1, "A", 1, 1⟩, ⟨2, "B", 1, 0⟩] := by
  refine ⟨?_, by decide⟩
  intro heroes heroNames
  have haux := groupHeroesAux_spec heroNames heroes 0 [] []
    (by simp) (by simp) (by simp [winsAt, lossesAt, findGroup])
  simp only [List.nil_append] at haux
  have hperm : (groupHeroes heroes heroNames).Perm (groupHeroesAux heroNames 0 [] heroes) :=
    List.perm_insertionSort _ _
  have hpermmap := hperm.map (fun g => g.heroId)
  refine ⟨(hpermmap.nodup_iff).mpr haux.1, ?_, ?_, List.sorted_insertionSort _ _⟩
  · intro id
    rw [hpermmap.mem_iff]
    exact haux.2.1 id
  · intro g hg
    have hg2 : g ∈ groupHeroesAux heroNames 0 [] heroes := hperm.mem_iff.mp hg
    have hfind := findGroup_eq_of_nodup _ g haux.1 hg2
    have hw := (haux.2.2 g.heroId).1
    have hl := (haux.2.2 g.heroId).2
    rw [winsAt, hfind] at hw
    rw [lossesAt, hfind] at hl
    exact ⟨hw, hl⟩

/-- Witness for the C9 theorem at the concrete example input. -/
theorem groupHeroes_spec_witness :
    (⟨1, "A", 1, 1⟩ : GroupedHero) ∈ groupHeroes [⟨1, true⟩, ⟨1, false⟩, ⟨2, true⟩] ["A", "A", "B"] ∧
    (1 : Nat) =
      ([⟨1, true⟩, ⟨1, false⟩, ⟨2, true⟩] : List HeroMatch).countP
        (fun x => x.heroId == 1 && x.isWin) := by
  have hmem : (⟨1, "A", 1, 1⟩ : GroupedHero) ∈
      groupHeroes [⟨1, true⟩, ⟨1, false⟩, ⟨2, true⟩] ["A", "A", "B"] := by decide
  exact ⟨hmem,
    ((groupHeroes_spec.1 [⟨1, true⟩, ⟨1, false⟩, ⟨2, true⟩] ["A", "A", "B"]).2.2.1
      ⟨1, "A", 1, 1⟩ hmem).1⟩

end PesikiBot
